import Mathlib

/-!
Shallow embedding of the `World` component of rustycraft
(`src/models/core/world.rs`) and verification of its specification.

Modelling conventions:
* Rust `i32` values are embedded as `Int`.  The source's arithmetic is
  transcribed with exact integer arithmetic (`Int.tdiv` / `Int.tmod` are
  Rust's truncating `/` and `%`); where the possibility of 32-bit overflow
  is itself under scrutiny (coordinate localization), a second transcription
  `localize_wrap32` applies the wrapping `wrap32` after every intermediate
  `i32` operation, which is Rust's release-mode (wrapping) overflow
  semantics.
* Rust `usize` casts `world_y as usize` are embedded by `toUsize`
  (reduction mod 2^64, i.e. the wrapping `as` cast from a signed value).
* `f32` vector arithmetic in the raymarcher is embedded by exact fraction
  arithmetic (`Qx`, an unnormalized `num/den` pair with positive
  denominators, closed under the operations the source performs:
  add, sub, divide-by-scalar, rounding, sign and magnitude comparison).
  `f32::round` is round-half-away-from-zero, embedded by `Qx.round`.
  The source normalizes the `vector` used for face resolution; since the
  face logic only inspects component signs and compares component
  magnitudes, both of which are invariant under scaling by the positive
  factor `1/‖vector‖`, the embedding uses the unnormalized vector.
* The chunk-distance test `((dx²+dz²) as f32).sqrt() > R as f32` is
  embedded as the exact integer comparison `R² < dx²+dz²`, which agrees
  with the `f32` computation whenever `dx²+dz²` and `R` are exactly
  representable (all realistic render distances).
* `&mut self` methods are embedded as state transformers
  `World → ... → result × World`; the panicking `unwrap` in `set_block`
  is embedded by an `Option World` result (`none` = abort).
-/

namespace RC

/-- Modelled from the spec: the block-type enumeration (external file
`block_type.rs`, not part of the given source). Only the distinguished
`Air` variant matters to the `World`; `Stone` stands for an arbitrary
non-air variant. -/
inductive BlockType where
| Air
| Stone
deriving DecidableEq

/-- Modelled from the spec: the cube-face enumeration (external file
`face.rs`, not part of the given source). -/
inductive Face where
| Top
| Bottom
| Left
| Right
| Front
| Back
deriving DecidableEq

/-- A chunk's mesh buffer (`Vec<f32>` shared via `Rc`), treated by the
`World` as an opaque renderable buffer; embedded as an opaque list. -/
abbrev MeshData := List Int

/-- Modelled from the spec: the external `Chunk` type, specified only at
its interface boundary: block read by local coordinate, column-height
queries, and a mesh buffer. Block storage is embedded as a function from
(local_x, y, local_z). -/
structure Chunk where
  block_at : Nat → Nat → Nat → BlockType
  highest_in_column : Nat → Nat → Nat
  highest_in_column_from_y : Nat → Nat → Nat → Nat
  mesh : MeshData

/-- Modelled from the spec: `Chunk::set_block`, the chunk's block write by
local coordinate. -/
def Chunk.set_block (c : Chunk) (local_x y local_z : Nat) (block : BlockType) : Chunk :=
  { c with block_at := fun a b d =>
      if a = local_x ∧ b = y ∧ d = local_z then block else c.block_at a b d }

/-- Modelled from the spec: the shared noise field (`Rc<OpenSimplex>`)
together with the external terrain generator `Chunk::new`: terrain is
deterministic, so a freshly generated chunk is a function of its chunk
coordinates and the (fixed, shared) noise field. -/
structure SimplexField where
  gen : Int → Int → Chunk

/-- Modelled from the spec: `Chunk::new(chunk_x, chunk_z, simplex)`
(external), generating the chunk from the shared noise field. -/
def Chunk.new (chunk_x chunk_z : Int) (simplex : SimplexField) : Chunk :=
  simplex.gen chunk_x chunk_z

/-- Modelled from the spec: `CoordMap<T>`, an associative container keyed
by a pair of signed chunk coordinates with unique keys and no ordering
guarantee; embedded as an association list. -/
abbrev CoordMap (α : Type) := List ((Int × Int) × α)

/-- Modelled from the spec: `CoordMap::new()`. -/
def CoordMap.new {α : Type} : CoordMap α := []

/-- Modelled from the spec: `CoordMap::get(x, z)`. -/
def CoordMap.get {α : Type} : CoordMap α → Int → Int → Option α
  | [], _, _ => none
  | (k, v) :: rest, x, z => if k = (x, z) then some v else CoordMap.get rest x z

/-- Modelled from the spec: `CoordMap::contains(x, z)`. -/
def CoordMap.contains {α : Type} (m : CoordMap α) (x z : Int) : Bool :=
  (CoordMap.get m x z).isSome

/-- Modelled from the spec: `CoordMap::insert(x, z, v)`. The `World` only
inserts at absent keys, so prepending preserves key uniqueness. -/
def CoordMap.insert {α : Type} (m : CoordMap α) (x z : Int) (v : α) : CoordMap α :=
  ((x, z), v) :: m

/-- Modelled from the spec: writing through the mutable reference returned
by `CoordMap::get_mut(x, z)` replaces the value stored at the key. -/
def CoordMap.update {α : Type} : CoordMap α → Int → Int → α → CoordMap α
  | [], _, _, _ => []
  | (k, v) :: rest, x, z, v' =>
    if k = (x, z) then (k, v') :: rest else (k, v) :: CoordMap.update rest x z v'

/-- The `World` struct (world.rs, lines 8-16). `mesh: Vec<Rc<Vec<f32>>>`
is a sequence of shared mesh-buffer references, embedded by the buffer
values themselves (an `Rc` clone shares the same buffer value). -/
structure World where
  chunks : CoordMap Chunk
  render_distance : Nat
  simplex : SimplexField
  player_chunk_x : Int
  player_chunk_z : Int
  mesh : List MeshData

/-- `World::new(render_distance)` (world.rs, lines 20-25); the noise-field
creation `OpenSimplex::new()` is external, so the field is a parameter. -/
def World.new (render_distance : Nat) (simplex : SimplexField) : World :=
  { chunks := CoordMap.new, render_distance, simplex,
    player_chunk_x := 0, player_chunk_z := 0, mesh := [] }

/-- `World::localize_coords_to_chunk` (world.rs, lines 147-161), exact
transcription with unbounded integers: Rust `/` is `Int.tdiv`, `%` is
`Int.tmod`, `i32::abs` composed with `as usize` is `Int.natAbs`.
The source method takes `&self` but never uses it. -/
def localize_coords_to_chunk (world_x world_z : Int) : Int × Int × Nat × Nat :=
  let chunk_x0 := (world_x + if world_x < 0 then 1 else 0).tdiv 16
  let chunk_x := if world_x < 0 then chunk_x0 - 1 else chunk_x0
  let chunk_z0 := (world_z + if world_z < 0 then 1 else 0).tdiv 16
  let chunk_z := if world_z < 0 then chunk_z0 - 1 else chunk_z0
  let local_x := (((chunk_x.natAbs : Int) * 16 + world_x).tmod 16).natAbs
  let local_z := (((chunk_z.natAbs : Int) * 16 + world_z).tmod 16).natAbs
  (chunk_x, chunk_z, local_x, local_z)

/-- Reduction of an integer into the representable range of `i32`,
`[-2^31, 2^31)`: Rust's release-mode wrapping overflow semantics. -/
def wrap32 (n : Int) : Int := (n + 2147483648) % 4294967296 - 2147483648

/-- `World::localize_coords_to_chunk` again, with every intermediate
`i32` arithmetic operation wrapped into `i32` range (`wrap32`): the
computation the compiled (release-mode) source performs when an
intermediate overflows. `i32::abs` cannot overflow here because the chunk
coordinate never reaches `i32::MIN`. -/
def localize_wrap32 (world_x world_z : Int) : Int × Int × Nat × Nat :=
  let chunk_x0 := (wrap32 (world_x + if world_x < 0 then 1 else 0)).tdiv 16
  let chunk_x := if world_x < 0 then wrap32 (chunk_x0 - 1) else chunk_x0
  let chunk_z0 := (wrap32 (world_z + if world_z < 0 then 1 else 0)).tdiv 16
  let chunk_z := if world_z < 0 then wrap32 (chunk_z0 - 1) else chunk_z0
  let local_x := ((wrap32 (wrap32 ((chunk_x.natAbs : Int) * 16) + world_x)).tmod 16).natAbs
  let local_z := ((wrap32 (wrap32 ((chunk_z.natAbs : Int) * 16) + world_z)).tmod 16).natAbs
  (chunk_x, chunk_z, local_x, local_z)

/-- Per-axis chunk coordinate computed by `localize_coords_to_chunk`
(proof-side shorthand for the common x/z expression). -/
def chunkOf (n : Int) : Int :=
  if n < 0 then (n + 1).tdiv 16 - 1 else n.tdiv 16

/-- Per-axis local offset computed by `localize_coords_to_chunk`
(proof-side shorthand for the common x/z expression). -/
def localOf (n : Int) : Nat :=
  ((((chunkOf n).natAbs : Int) * 16 + n).tmod 16).natAbs

/-- `World::get_chunk` (world.rs, lines 91-93). -/
def World.get_chunk (w : World) (chunk_x chunk_z : Int) : Option Chunk :=
  CoordMap.get w.chunks chunk_x chunk_z

/-- `World::get_chunk_mut` (world.rs, lines 84-89); the mutable borrow is
embedded by returning the chunk looked up (writes go through
`CoordMap.update`). -/
def World.get_chunk_mut (w : World) (chunk_x chunk_z : Int) : Option Chunk :=
  match CoordMap.contains w.chunks chunk_x chunk_z with
  | true => CoordMap.get w.chunks chunk_x chunk_z
  | false => none

/-- `World::get_or_insert_chunk` (world.rs, lines 73-82). In the absent
case the source inserts the freshly generated chunk and returns
`get(..).unwrap()`, which is exactly the inserted chunk. -/
def World.get_or_insert_chunk (w : World) (chunk_x chunk_z : Int) : Chunk × World :=
  match CoordMap.get w.chunks chunk_x chunk_z with
  | some c => (c, w)
  | none =>
    let c := Chunk.new chunk_x chunk_z w.simplex
    (c, { w with chunks := CoordMap.insert w.chunks chunk_x chunk_z c })

/-- The mesh buffer `get_or_insert_chunk` hands back for a coordinate:
the stored chunk's buffer if present, else the freshly generated one. -/
def World.gocMesh (w : World) (c : Int × Int) : MeshData :=
  match CoordMap.get w.chunks c.1 c.2 with
  | some ch => ch.mesh
  | none => (Chunk.new c.1 c.2 w.simplex).mesh

/-- The candidate chunk coordinates enumerated by the two nested loops of
`recalculate_mesh_from_perspective` (world.rs, lines 57-60), in their
iteration order: outer `x` over `0..render_distance*2` ascending, inner
`z` likewise, each shifted by `- render_distance + player_chunk`. -/
def squareCoords (R : Nat) (player_chunk_x player_chunk_z : Int) : List (Int × Int) :=
  (List.range (R * 2)).flatMap fun (x : Nat) =>
    (List.range (R * 2)).map fun (z : Nat) =>
      ((x : Int) - (R : Int) + player_chunk_x, (z : Int) - (R : Int) + player_chunk_z)

/-- The loop body of `recalculate_mesh_from_perspective` (world.rs, lines
56-68), traversing the enumerated candidates: skip a candidate if
`sqrt(dx²+dz²) > R` (embedded exactly as `R² < dx²+dz²`), otherwise
`get_or_insert_chunk` and push a clone of its mesh buffer. -/
def World.recalcGo (player_chunk_x player_chunk_z : Int) (R : Nat) :
    World → List (Int × Int) → World × List MeshData
  | w, [] => (w, [])
  | w, c :: rest =>
    if (R : Int) ^ 2 < (player_chunk_x - c.1) ^ 2 + (player_chunk_z - c.2) ^ 2 then
      World.recalcGo player_chunk_x player_chunk_z R w rest
    else
      let p := w.get_or_insert_chunk c.1 c.2
      let q := World.recalcGo player_chunk_x player_chunk_z R p.2 rest
      (q.1, p.1.mesh :: q.2)

/-- `World::recalculate_mesh_from_perspective` (world.rs, lines 55-71):
runs the nested loops and replaces `self.mesh` with the collected list. -/
def World.recalculate_mesh_from_perspective (w : World)
    (player_chunk_x player_chunk_z : Int) : World :=
  let p := World.recalcGo player_chunk_x player_chunk_z w.render_distance w
      (squareCoords w.render_distance player_chunk_x player_chunk_z)
  { p.1 with mesh := p.2 }

/-- `World::get_world_mesh_from_perspective` (world.rs, lines 37-53).
Note the player chunk is computed with Rust's truncating `/` (`Int.tdiv`),
not with the floor semantics of `localize_coords_to_chunk`. Returns the
returned `&Vec` (by value) together with the updated state. -/
def World.get_world_mesh_from_perspective (w : World) (player_x player_z : Int)
    (force : Bool) : List MeshData × World :=
  let player_chunk_x := player_x.tdiv 16
  let player_chunk_z := player_z.tdiv 16
  if force = false ∧ 0 < w.mesh.length ∧ w.player_chunk_x = player_chunk_x
      ∧ w.player_chunk_z = player_chunk_z then
    (w.mesh, w)
  else
    let w1 := w.recalculate_mesh_from_perspective player_chunk_x player_chunk_z
    let w2 := { w1 with player_chunk_x := player_chunk_x, player_chunk_z := player_chunk_z }
    (w2.mesh, w2)

/-- The `world_y as usize` cast (i32 → usize): sign-extend and
reinterpret, i.e. reduction modulo 2^64. -/
def toUsize (n : Int) : Nat := (n % 18446744073709551616).toNat

/-- `World::air_at` (world.rs, lines 95-108). -/
def World.air_at (w : World) (world_x world_y world_z : Int) : Bool :=
  if world_y < 0 then false
  else
    match localize_coords_to_chunk world_x world_z with
    | (chunk_x, chunk_z, local_x, local_z) =>
      match w.get_chunk chunk_x chunk_z with
      | some chunk => decide (chunk.block_at local_x (toUsize world_y) local_z = BlockType.Air)
      | none => true

/-- `World::get_block` (world.rs, lines 110-119): `None` if the chunk is
missing or `world_y < 0`, else the chunk's block. -/
def World.get_block (w : World) (world_x world_y world_z : Int) : Option BlockType :=
  match localize_coords_to_chunk world_x world_z with
  | (chunk_x, chunk_z, local_x, local_z) =>
    match w.get_chunk chunk_x chunk_z, decide (world_y < 0) with
    | none, _ => none
    | some _, true => none
    | some chunk, false => some (chunk.block_at local_x (toUsize world_y) local_z)

/-- `World::highest_in_column` (world.rs, lines 121-129). -/
def World.highest_in_column (w : World) (world_x world_z : Int) : Option Nat :=
  match localize_coords_to_chunk world_x world_z with
  | (chunk_x, chunk_z, local_x, local_z) =>
    match w.get_chunk chunk_x chunk_z with
    | none => none
    | some chunk => some (chunk.highest_in_column local_x local_z)

/-- `World::highest_in_column_from_y` (world.rs, lines 131-139): no
negativity check on `world_y`; the wrapping cast is passed straight to
the chunk. -/
def World.highest_in_column_from_y (w : World) (world_x world_y world_z : Int) : Option Nat :=
  match localize_coords_to_chunk world_x world_z with
  | (chunk_x, chunk_z, local_x, local_z) =>
    match w.get_chunk chunk_x chunk_z with
    | none => none
    | some chunk => some (chunk.highest_in_column_from_y local_x (toUsize world_y) local_z)

/-- `World::set_block` (world.rs, lines 141-145): `chunk.unwrap()` panics
when the chunk is missing (embedded as `none`); otherwise the write is
delegated to the chunk through the mutable borrow. No negativity check on
`world_y`: the wrapping cast is passed straight to the chunk. -/
def World.set_block (w : World) (world_x world_y world_z : Int) (block : BlockType) :
    Option World :=
  match localize_coords_to_chunk world_x world_z with
  | (chunk_x, chunk_z, local_x, local_z) =>
    match w.get_chunk_mut chunk_x chunk_z with
    | none => none
    | some chunk =>
      let written := chunk.set_block local_x (toUsize world_y) local_z block
      some { w with chunks := CoordMap.update w.chunks chunk_x chunk_z written }

/-- Exact fraction (unnormalized `num/den`): the embedding of `f32`
values flowing through the raymarcher. All constructors and operations
used keep the denominator positive. -/
structure Qx where
  num : Int
  den : Int
deriving DecidableEq

/-- Embed an integer. -/
def Qx.ofInt (n : Int) : Qx := ⟨n, 1⟩

/-- Exact addition. -/
def Qx.add (a b : Qx) : Qx := ⟨a.num * b.den + b.num * a.den, a.den * b.den⟩

/-- Exact subtraction. -/
def Qx.sub (a b : Qx) : Qx := ⟨a.num * b.den - b.num * a.den, a.den * b.den⟩

/-- Exact negation. -/
def Qx.neg (a : Qx) : Qx := ⟨-a.num, a.den⟩

/-- Exact division by a (positive) integer scalar. -/
def Qx.divInt (a : Qx) (n : Int) : Qx := ⟨a.num, a.den * n⟩

/-- Floor of the represented value (denominator positive): Euclidean
division of numerator by denominator. -/
def Qx.floor (a : Qx) : Int := a.num / a.den

/-- `f32::round`: round to nearest, half away from zero (denominator
positive, so the numerator carries the sign). -/
def Qx.round (a : Qx) : Int :=
  if 0 ≤ a.num then (a.add ⟨1, 2⟩).floor else -((a.sub ⟨1, 2⟩).neg.floor)

/-- `0.0 < a` (denominator positive). -/
def Qx.isPos (a : Qx) : Bool := decide (0 < a.num)

/-- `f32::abs` (denominator positive). -/
def Qx.abs (a : Qx) : Qx := ⟨(a.num.natAbs : Int), a.den⟩

/-- `a < b` as values (denominators positive): cross-multiplied compare. -/
def Qx.lt (a b : Qx) : Bool := decide (a.num * b.den < b.num * a.den)

/-- `cgmath::Vector3<f32>`, embedded over exact fractions. -/
structure Vec3 where
  x : Qx
  y : Qx
  z : Qx
deriving DecidableEq

/-- Componentwise vector addition. -/
def Vec3.add (a b : Vec3) : Vec3 := ⟨a.x.add b.x, a.y.add b.y, a.z.add b.z⟩

/-- Componentwise vector subtraction. -/
def Vec3.sub (a b : Vec3) : Vec3 := ⟨a.x.sub b.x, a.y.sub b.y, a.z.sub b.z⟩

/-- `v / c` for an integer scalar (the source's `*direction / 10.0`). -/
def Vec3.divInt (a : Vec3) (n : Int) : Vec3 := ⟨a.x.divInt n, a.y.divInt n, a.z.divInt n⟩

/-- The free function `signum` (world.rs, lines 236-242): `1` if positive,
else `-1` (also for zero, as in the source). -/
def signum (n : Qx) : Int := if n.isPos then 1 else -1

/-- Face resolution on a raymarch hit (world.rs, lines 179-222). `vector`
is the source's `(*position - (check_position - dir)).normalize()` without
the normalization (see the file header: the logic below is invariant under
positive scaling). -/
def World.resolve_face (w : World) (position check_position dir : Vec3)
    (x y z : Int) : Option Face :=
  let vector := position.sub (check_position.sub dir)
  let abs_x := vector.x.abs
  let abs_y := vector.y.abs
  let abs_z := vector.z.abs
  let sign := signum vector.x
  let fx : Option Face × Bool :=
    if w.air_at (x + sign) y z then
      (if vector.x.isPos then some Face.Right else some Face.Left, true)
    else (none, false)
  let fy : Option Face × Bool :=
    if fx.1.isNone ∨ abs_x.lt abs_y then
      if w.air_at x (y + signum vector.y) z then
        (if vector.y.isPos then some Face.Top else some Face.Bottom, false)
      else fx
    else fx
  let fz : Option Face :=
    if fy.1.isNone ∨ (if fy.2 then abs_x.lt abs_z else abs_y.lt abs_z) then
      if w.air_at x y (z + signum vector.z) then
        (if vector.z.isPos then some Face.Back else some Face.Front)
      else fy.1
    else fy.1
  fz

/-- The raymarch loop (world.rs, lines 169-232): advance by `dir`, round
the position to a candidate block, stop with a hit on the first non-air
block; when `range` reaches 0 after an airy step, give up with `none`.
(The source also accumulates the visited coordinates in an unused local
vector `result`, which is dead code and omitted.) -/
def World.raymarch_loop (w : World) (position dir : Vec3) :
    Nat → Vec3 → Option ((Int × Int × Int) × Option Face)
  | range, check_position =>
    let cp := check_position.add dir
    let x := cp.x.round
    let y := cp.y.round
    let z := cp.z.round
    match w.get_block x y z with
    | some block =>
      if block ≠ BlockType.Air then
        some ((x, y, z), w.resolve_face position cp dir x y z)
      else
        match range with
        | 0 => none
        | r + 1 => w.raymarch_loop position dir r cp
    | none =>
      match range with
      | 0 => none
      | r + 1 => w.raymarch_loop position dir r cp

/-- `World::raymarch_block` (world.rs, lines 163-233): step vector is
`direction / 10.0`, budget counter starts at 250 (note: the counter is
tested after each sample, so 251 positions are sampled in total). -/
def World.raymarch_block (w : World) (position direction : Vec3) :
    Option ((Int × Int × Int) × Option Face) :=
  let dir := direction.divInt 10
  w.raymarch_loop position dir 250 position

/-- Position after `n` further raymarch steps from `p` (iterated
`Vec3.add` in the loop's own association order). -/
def stepN (dir : Vec3) : Nat → Vec3 → Vec3
  | 0, p => p
  | n + 1, p => stepN dir n (p.add dir)

/-- Whether the raymarch sample at position `v` resolves to a non-air
block (a loaded chunk whose block there is not `Air`). -/
def World.solid_sample (w : World) (v : Vec3) : Bool :=
  match w.get_block v.x.round v.y.round v.z.round with
  | some block => decide (block ≠ BlockType.Air)
  | none => false

/-- A trivial noise field for concrete test worlds: every generated chunk
is all air with an empty mesh. -/
def trivSimplex : SimplexField :=
  ⟨fun _ _ =>
    { block_at := fun _ _ _ => BlockType.Air,
      highest_in_column := fun _ _ => 0,
      highest_in_column_from_y := fun _ _ _ => 0,
      mesh := [] }⟩

/-- A chunk whose only non-air block sits at local (0, 0, 0). -/
def chunkOrigin : Chunk :=
  { block_at := fun lx y lz =>
      if lx = 0 ∧ y = 0 ∧ lz = 0 then BlockType.Stone else BlockType.Air,
    highest_in_column := fun _ _ => 0,
    highest_in_column_from_y := fun _ _ _ => 0,
    mesh := [] }

/-- Concrete world for the raymarch-hit scenario: chunk (0,0) is loaded
with its only solid block at world (0,0,0); every other chunk is
unloaded (hence treated as air by queries). -/
def worldOrigin : World :=
  { chunks := [((0, 0), chunkOrigin)], render_distance := 2, simplex := trivSimplex,
    player_chunk_x := 0, player_chunk_z := 0, mesh := [] }

/-- A chunk whose only non-air block sits at local (11, 0, 0): inside
chunk (15, 0) this is world coordinate (251, 0, 0). -/
def chunkFar : Chunk :=
  { block_at := fun lx y lz =>
      if lx = 11 ∧ y = 0 ∧ lz = 0 then BlockType.Stone else BlockType.Air,
    highest_in_column := fun _ _ => 0,
    highest_in_column_from_y := fun _ _ _ => 0,
    mesh := [] }

/-- Concrete world whose only solid block is at world (251, 0, 0) — the
position a unit-step ray from the origin reaches at sample number 251. -/
def world251 : World :=
  { chunks := [((15, 0), chunkFar)], render_distance := 2, simplex := trivSimplex,
    player_chunk_x := 0, player_chunk_z := 0, mesh := [] }

/-- An all-air chunk with a marker mesh, for write/query test worlds. -/
def chunkA : Chunk :=
  { block_at := fun _ _ _ => BlockType.Air,
    highest_in_column := fun _ _ => 7,
    highest_in_column_from_y := fun _ _ _ => 7,
    mesh := [3] }

/-- Concrete world holding exactly chunk (0, 0) (= `chunkA`). -/
def worldA : World :=
  { chunks := [((0, 0), chunkA)], render_distance := 1, simplex := trivSimplex,
    player_chunk_x := 0, player_chunk_z := 0, mesh := [] }

/-- Concrete world with no chunks but a non-empty mesh cache for viewer
chunk (0, 0): a viewport cache hit at the origin. -/
def worldCached : World :=
  { chunks := [], render_distance := 1, simplex := trivSimplex,
    player_chunk_x := 0, player_chunk_z := 0, mesh := [[0]] }

/-! ## Localization (claim C1) -/

/-- For a nonpositive dividend, Rust's truncating division by 16 is the
negated Euclidean division of the negation. -/
theorem tdiv_nonpos_eq (m : Int) (h : m ≤ 0) : m.tdiv 16 = -(-m / 16) := by
  have h2 : (-(-m)).tdiv 16 = -((-m).tdiv 16) := Int.neg_tdiv (-m) 16
  rw [neg_neg] at h2
  rw [h2, Int.tdiv_eq_ediv (by omega) (by omega)]

/-- `localize_coords_to_chunk` factors through the per-axis helpers. -/
theorem localize_eq (wx wz : Int) :
    localize_coords_to_chunk wx wz = (chunkOf wx, chunkOf wz, localOf wx, localOf wz) := by
  simp only [localize_coords_to_chunk, localOf, chunkOf]
  by_cases h : wx < 0 <;> by_cases h' : wz < 0
  · simp only [if_pos h, if_pos h']
  · simp only [if_pos h, if_neg h', add_zero]
  · simp only [if_neg h, add_zero, if_pos h']
  · simp only [if_neg h, if_neg h', add_zero]

/-- The chunk coordinate computed per axis is the floor of `n / 16`. -/
theorem chunkOf_bounds (n : Int) : chunkOf n * 16 ≤ n ∧ n < chunkOf n * 16 + 16 := by
  unfold chunkOf
  by_cases h : n < 0
  · rw [if_pos h, tdiv_nonpos_eq (n + 1) (by omega)]
    omega
  · rw [if_neg h, Int.tdiv_eq_ediv (by omega) (by omega)]
    omega

/-- The local offset computed per axis is the remainder of the floor
division, hence in `[0, 16)`. -/
theorem localOf_eq (n : Int) : (localOf n : Int) = n - chunkOf n * 16 ∧ localOf n < 16 := by
  obtain ⟨hb1, hb2⟩ := chunkOf_bounds n
  unfold localOf
  have hm : 0 ≤ ((chunkOf n).natAbs : Int) * 16 + n := by omega
  rw [Int.tmod_eq_emod hm (by omega)]
  omega

/-- An integer already in `i32` range is fixed by the wrap. -/
theorem wrap32_id (n : Int) (h1 : -2147483648 ≤ n) (h2 : n < 2147483648) : wrap32 n = n := by
  unfold wrap32
  omega

/-- Within `[-2^31+16, 2^30-1]` the wrapped chunk computation never
overflows and agrees with the exact one. -/
theorem wrapAxisChunk (n : Int) (h1 : -2147483632 ≤ n) (h2 : n ≤ 1073741823) :
    (if n < 0 then wrap32 ((wrap32 (n + if n < 0 then (1 : Int) else 0)).tdiv 16 - 1)
     else (wrap32 (n + if n < 0 then (1 : Int) else 0)).tdiv 16) = chunkOf n := by
  by_cases h : n < 0
  · simp only [if_pos h]
    rw [wrap32_id (n + 1) (by omega) (by omega), tdiv_nonpos_eq (n + 1) (by omega)]
    rw [wrap32_id _ (by omega) (by omega)]
    unfold chunkOf
    rw [if_pos h, tdiv_nonpos_eq (n + 1) (by omega)]
  · simp only [if_neg h, add_zero]
    rw [wrap32_id n (by omega) (by omega)]
    unfold chunkOf
    rw [if_neg h]

/-- Within `[-2^31+16, 2^30-1]` the wrapped local-offset computation
never overflows and agrees with the exact one. -/
theorem wrapAxisLocal (n : Int) (h1 : -2147483632 ≤ n) (h2 : n ≤ 1073741823) :
    ((wrap32 (wrap32 (((chunkOf n).natAbs : Int) * 16) + n)).tmod 16).natAbs = localOf n := by
  obtain ⟨hb1, hb2⟩ := chunkOf_bounds n
  rw [wrap32_id (((chunkOf n).natAbs : Int) * 16) (by omega) (by omega)]
  rw [wrap32_id (((chunkOf n).natAbs : Int) * 16 + n) (by omega) (by omega)]
  rfl

/-- C1 (amended): the localization round trip
`chunk * 16 + local = world ∧ 0 ≤ local < 16` holds for every pair of
integer world coordinates under exact arithmetic (the computation the
source performs whenever no intermediate overflows `i32`), and for world
coordinates within `[-2^31 + 16, 2^30 - 1]` every intermediate stays in
`i32` range, so the release-mode (wrapping) computation coincides with the
exact one. (As stated the original claim is false: for inputs above
`2^30` the intermediate `chunk.abs() * 16 + world` exceeds `i32::MAX`,
see the counterexample.) -/
theorem C1_localization (wx wz : Int) :
    ((localize_coords_to_chunk wx wz).1 * 16 + ((localize_coords_to_chunk wx wz).2.2.1 : Int) = wx
     ∧ (localize_coords_to_chunk wx wz).2.2.1 < 16
     ∧ (localize_coords_to_chunk wx wz).2.1 * 16
         + ((localize_coords_to_chunk wx wz).2.2.2 : Int) = wz
     ∧ (localize_coords_to_chunk wx wz).2.2.2 < 16)
    ∧ (-2147483632 ≤ wx → wx ≤ 1073741823 → -2147483632 ≤ wz → wz ≤ 1073741823 →
        localize_wrap32 wx wz = localize_coords_to_chunk wx wz) := by
  constructor
  · obtain ⟨hx1, hx2⟩ := localOf_eq wx
    obtain ⟨hz1, hz2⟩ := localOf_eq wz
    simp only [localize_eq]
    exact ⟨by omega, hx2, by omega, hz2⟩
  · intro ha hb hc hd
    simp only [localize_wrap32]
    rw [wrapAxisChunk wx ha hb, wrapAxisChunk wz hc hd,
      wrapAxisLocal wx ha hb, wrapAxisLocal wz hc hd, localize_eq]

/-- C1 witness: the amended statement at world (-17, 33): chunk (-2, 2),
local (15, 1), and the wrapped computation coincides. -/
theorem C1_localization_witness :
    ((localize_coords_to_chunk (-17) 33).1 * 16
        + ((localize_coords_to_chunk (-17) 33).2.2.1 : Int) = -17
     ∧ (localize_coords_to_chunk (-17) 33).2.2.1 < 16
     ∧ (localize_coords_to_chunk (-17) 33).2.1 * 16
         + ((localize_coords_to_chunk (-17) 33).2.2.2 : Int) = 33
     ∧ (localize_coords_to_chunk (-17) 33).2.2.2 < 16)
    ∧ localize_wrap32 (-17) 33 = localize_coords_to_chunk (-17) 33 :=
  ⟨(C1_localization (-17) 33).1,
   (C1_localization (-17) 33).2 (by decide) (by decide) (by decide) (by decide)⟩

/-- C1 counterexample: at world_x = 2^30 + 1 (a valid `i32`) the
intermediate `chunk_x.abs() * 16 + world_x` exceeds `i32::MAX`
(2^31 + 1 > 2^31 - 1), and the wrapped computation the release-mode
source performs returns local_x = 15, breaking the round trip
(chunk 2^26, so chunk*16 + 15 = 2^30 + 15 ≠ 2^30 + 1). -/
theorem C1_cex :
    ((localize_wrap32 1073741825 0).1 * 16 + ((localize_wrap32 1073741825 0).2.2.1 : Int)
        ≠ 1073741825)
    ∧ 2147483647 <
        ((localize_coords_to_chunk 1073741825 0).1.natAbs : Int) * 16 + 1073741825 := by
  decide

/-! ## Player-chunk computation of the viewport query (claim C2) -/

/-- C2 (amended): `get_world_mesh_from_perspective` computes the player's
chunk coordinate with Rust's truncating division `player / 16`
(`Int.tdiv`, rounding toward zero), not with the floor semantics of
`localize_coords_to_chunk`; the two agree for non-negative player
coordinates. (As stated the original claim is false for negative
coordinates: player_x = -1 yields player chunk 0, not -1 — see the
counterexample.) -/
theorem C2_player_chunk_trunc (w : World) (px pz : Int) :
    ((w.get_world_mesh_from_perspective px pz true).2.player_chunk_x = px.tdiv 16
     ∧ (w.get_world_mesh_from_perspective px pz true).2.player_chunk_z = pz.tdiv 16)
    ∧ ∀ p : Int, 0 ≤ p → p.tdiv 16 = (localize_coords_to_chunk p 0).1 := by
  constructor
  · unfold World.get_world_mesh_from_perspective
    simp
  · intro p hp
    rw [localize_eq]
    show p.tdiv 16 = chunkOf p
    unfold chunkOf
    rw [if_neg (by omega)]

/-- C2 witness: the amended statement at player (35, -3) on a fresh
world (forced recompute): stored player chunk is (2, 0), and truncating
and floor division agree at the non-negative coordinate 35. -/
theorem C2_player_chunk_trunc_witness :
    (((World.new 1 trivSimplex).get_world_mesh_from_perspective 35 (-3) true).2.player_chunk_x
        = (35 : Int).tdiv 16
     ∧ ((World.new 1 trivSimplex).get_world_mesh_from_perspective 35 (-3) true).2.player_chunk_z
        = (-3 : Int).tdiv 16)
    ∧ (35 : Int).tdiv 16 = (localize_coords_to_chunk 35 0).1 :=
  ⟨(C2_player_chunk_trunc (World.new 1 trivSimplex) 35 (-3)).1,
   (C2_player_chunk_trunc (World.new 1 trivSimplex) 35 (-3)).2 35 (by decide)⟩

/-- C2 counterexample: at player_x = -1 (cache miss) the source stores
player chunk 0 (truncation toward zero), while the floor localization of
world x = -1 is chunk -1. -/
theorem C2_cex :
    ((World.new 1 trivSimplex).get_world_mesh_from_perspective (-1) 0 false).2.player_chunk_x = 0
    ∧ (localize_coords_to_chunk (-1) 0).1 = -1 := by
  constructor
  · rfl
  · decide

/-! ## Queries below the world floor (claim C3) -/

/-- Below the world floor `air_at` short-circuits to false. -/
theorem air_at_of_neg (w : World) (wx wy wz : Int) (h : wy < 0) :
    w.air_at wx wy wz = false := by
  unfold World.air_at
  rw [if_pos h]

/-- Below the world floor `get_block` returns none (whether or not the
chunk exists). -/
theorem get_block_of_neg (w : World) (wx wy wz : Int) (h : wy < 0) :
    w.get_block wx wy wz = none := by
  rcases hL : localize_coords_to_chunk wx wz with ⟨cx, cz, lx, lz⟩
  unfold World.get_block
  simp only [hL]
  cases hget : w.get_chunk cx cz with
  | none => rfl
  | some c => rw [decide_eq_true h]

/-- C3 (amended): for every negative world_y, `air_at` returns false —
space below the world floor is treated as solid, not air (the guard
`world_y < 0` returns false before any chunk lookup). -/
theorem C3_below_floor (w : World) (wx wy wz : Int) (h : wy < 0) :
    w.air_at wx wy wz = false :=
  air_at_of_neg w wx wy wz h

/-- C3 witness: the amended statement at (3, -2, 5) on a fresh world. -/
theorem C3_below_floor_witness : (World.new 2 trivSimplex).air_at 3 (-2) 5 = false :=
  C3_below_floor (World.new 2 trivSimplex) 3 (-2) 5 (by decide)

/-- C3 counterexample: `air_at (0, -1, 0)` is false, not true, even
though the claim asserts every negative world_y yields true. -/
theorem C3_cex : ¬ ((World.new 2 trivSimplex).air_at 0 (-1) 0 = true) := by
  intro h
  exact absurd h (by decide)

/-! ## Queries against unloaded chunks (claim C8) -/

/-- C8 (amended): for every coordinate whose owning chunk has never been
created, `air_at` returns true provided world_y is non-negative (for
negative world_y the below-floor guard returns false first), and
`get_block` returns none; `get_block` also returns none whenever world_y
is negative. Both queries are read-only (`&self` in the source; pure
functions of the world here), so neither creates a chunk nor mutates the
`World`. -/
theorem C8_unloaded_queries (w : World) (wx wy wy2 wz : Int) :
    (w.get_chunk (localize_coords_to_chunk wx wz).1 (localize_coords_to_chunk wx wz).2.1 = none →
      (0 ≤ wy → w.air_at wx wy wz = true) ∧ w.get_block wx wy wz = none)
    ∧ (wy2 < 0 → w.get_block wx wy2 wz = none) := by
  rcases hL : localize_coords_to_chunk wx wz with ⟨cx, cz, lx, lz⟩
  constructor
  · intro hnone
    have hnone2 : w.get_chunk cx cz = none := hnone
    constructor
    · intro hy
      unfold World.air_at
      rw [if_neg (by omega)]
      simp only [hL, hnone2]
    · unfold World.get_block
      simp only [hL, hnone2]
  · intro hy2
    exact get_block_of_neg w wx wy2 wz hy2

/-- C8 witness: the amended statement on a fresh (chunkless) world at
(2, 3, 4) and at negative height -5. -/
theorem C8_unloaded_queries_witness :
    ((World.new 1 trivSimplex).air_at 2 3 4 = true
     ∧ (World.new 1 trivSimplex).get_block 2 3 4 = none)
    ∧ (World.new 1 trivSimplex).get_block 2 (-5) 4 = none :=
  ⟨⟨((C8_unloaded_queries (World.new 1 trivSimplex) 2 3 (-5) 4).1 rfl).1 (by decide),
    ((C8_unloaded_queries (World.new 1 trivSimplex) 2 3 (-5) 4).1 rfl).2⟩,
   (C8_unloaded_queries (World.new 1 trivSimplex) 2 3 (-5) 4).2 (by decide)⟩

/-- C8 counterexample: the owning chunk of (1, -1, 1) was never created,
yet `air_at` returns false (the negative-y guard fires first), refuting
"for every coordinate whose owning chunk has never been created, air_at
returns true". -/
theorem C8_cex :
    (World.new 1 trivSimplex).get_chunk 0 0 = none
    ∧ (World.new 1 trivSimplex).air_at 1 (-1) 1 = false :=
  ⟨rfl, rfl⟩

/-! ## set_block and the wrapping y cast (claims C9, C10) -/

/-- `get_chunk_mut` performs exactly the lookup of `get_chunk`. -/
theorem get_chunk_mut_eq (w : World) (cx cz : Int) :
    w.get_chunk_mut cx cz = w.get_chunk cx cz := by
  unfold World.get_chunk_mut World.get_chunk CoordMap.contains
  cases h : CoordMap.get w.chunks cx cz <;> rfl

/-- `set_block` aborts exactly on a missing chunk; on a present chunk it
localizes and delegates the write. -/
theorem set_block_cases (w : World) (wx wy wz cx cz : Int) (lx lz : Nat) (b : BlockType)
    (hL : localize_coords_to_chunk wx wz = (cx, cz, lx, lz)) :
    (w.set_block wx wy wz b = none ↔ w.get_chunk cx cz = none)
    ∧ ∀ ch, w.get_chunk cx cz = some ch →
        w.set_block wx wy wz b = some { w with chunks :=
          (CoordMap.update w.chunks cx cz (ch.set_block lx (toUsize wy) lz b)) } := by
  unfold World.set_block
  simp only [hL, get_chunk_mut_eq]
  cases hg : w.get_chunk cx cz with
  | none => simp
  | some ch0 =>
    constructor
    · simp
    · intro ch hch
      rw [Option.some.injEq] at hch
      subst hch
      rfl

/-- On a present chunk, `highest_in_column_from_y` delegates with the
wrapped y index. -/
theorem highest_from_y_present (w : World) (wx wy wz cx cz : Int) (lx lz : Nat) (ch : Chunk)
    (hL : localize_coords_to_chunk wx wz = (cx, cz, lx, lz))
    (h : w.get_chunk cx cz = some ch) :
    w.highest_in_column_from_y wx wy wz
      = some (ch.highest_in_column_from_y lx (toUsize wy) lz) := by
  unfold World.highest_in_column_from_y
  simp only [hL, h]

/-- The wrapping `as usize` cast of an `i32`-range negative value. -/
theorem toUsize_neg (wy : Int) (h1 : -2147483648 ≤ wy) (h2 : wy < 0) :
    (toUsize wy : Int) = 18446744073709551616 + wy := by
  unfold toUsize
  omega

/-- C9: `set_block` aborts (the `unwrap` panics, embedded as `none`) if
and only if the target chunk does not exist; under the precondition that
the owning chunk exists the abort branch is unreachable and `set_block`
localizes the coordinates and delegates the write to that chunk's
mutator. -/
theorem C9_set_block (w : World) (wx wy wz : Int) (b : BlockType) :
    (w.set_block wx wy wz b = none ↔
      w.get_chunk (localize_coords_to_chunk wx wz).1 (localize_coords_to_chunk wx wz).2.1 = none)
    ∧ ∀ ch, w.get_chunk (localize_coords_to_chunk wx wz).1 (localize_coords_to_chunk wx wz).2.1
          = some ch →
        w.set_block wx wy wz b = some { w with chunks :=
          (CoordMap.update w.chunks (localize_coords_to_chunk wx wz).1
            (localize_coords_to_chunk wx wz).2.1
            (ch.set_block (localize_coords_to_chunk wx wz).2.2.1 (toUsize wy)
              (localize_coords_to_chunk wx wz).2.2.2 b)) } :=
  set_block_cases w wx wy wz (localize_coords_to_chunk wx wz).1
    (localize_coords_to_chunk wx wz).2.1 (localize_coords_to_chunk wx wz).2.2.1
    (localize_coords_to_chunk wx wz).2.2.2 b rfl

/-- C9 witness: on `worldA` (chunk (0,0) loaded) the write at world
(3, 2, 5) does not abort and delegates to the chunk's mutator at local
(3, 5); the abort-iff-missing equivalence holds there. -/
theorem C9_set_block_witness :
    (worldA.set_block 3 2 5 BlockType.Stone = none ↔ worldA.get_chunk 0 0 = none)
    ∧ worldA.set_block 3 2 5 BlockType.Stone = some { worldA with chunks :=
        (CoordMap.update worldA.chunks 0 0 (chunkA.set_block 3 (toUsize 2) 5 BlockType.Stone)) } :=
  ⟨(C9_set_block worldA 3 2 5 BlockType.Stone).1,
   (C9_set_block worldA 3 2 5 BlockType.Stone).2 chunkA rfl⟩

/-- C10: unlike `get_block` and `air_at` (which guard `world_y < 0`),
`set_block` and `highest_in_column_from_y` perform no negativity check:
with the target chunk present and world_y negative, both convert world_y
with the wrapping `as usize` cast (`toUsize`, reduction mod 2^64) and
pass the resulting huge index straight to the chunk — for i32-range
negative world_y the index equals 2^64 + world_y — while `get_block`
returns none and `air_at` returns false on the same input. -/
theorem C10_wrapping_cast (w : World) (wx wy wz : Int) (b : BlockType) (ch : Chunk)
    (hy : wy < 0)
    (hch : w.get_chunk (localize_coords_to_chunk wx wz).1 (localize_coords_to_chunk wx wz).2.1
        = some ch) :
    w.set_block wx wy wz b = some { w with chunks :=
        (CoordMap.update w.chunks (localize_coords_to_chunk wx wz).1
          (localize_coords_to_chunk wx wz).2.1
          (ch.set_block (localize_coords_to_chunk wx wz).2.2.1 (toUsize wy)
            (localize_coords_to_chunk wx wz).2.2.2 b)) }
    ∧ w.highest_in_column_from_y wx wy wz
        = some (ch.highest_in_column_from_y (localize_coords_to_chunk wx wz).2.2.1 (toUsize wy)
            (localize_coords_to_chunk wx wz).2.2.2)
    ∧ w.get_block wx wy wz = none
    ∧ w.air_at wx wy wz = false
    ∧ (-2147483648 ≤ wy → (toUsize wy : Int) = 18446744073709551616 + wy) :=
  ⟨(set_block_cases w wx wy wz (localize_coords_to_chunk wx wz).1
      (localize_coords_to_chunk wx wz).2.1 (localize_coords_to_chunk wx wz).2.2.1
      (localize_coords_to_chunk wx wz).2.2.2 b rfl).2 ch hch,
   highest_from_y_present w wx wy wz (localize_coords_to_chunk wx wz).1
      (localize_coords_to_chunk wx wz).2.1 (localize_coords_to_chunk wx wz).2.2.1
      (localize_coords_to_chunk wx wz).2.2.2 ch rfl hch,
   get_block_of_neg w wx wy wz hy,
   air_at_of_neg w wx wy wz hy,
   fun h1 => toUsize_neg wy h1 hy⟩

/-- C10 witness: on `worldA` at world (3, -1, 5): the write and the
column query delegate with the wrapped index toUsize (-1) = 2^64 - 1,
while get_block returns none and air_at returns false. -/
theorem C10_wrapping_cast_witness :
    worldA.set_block 3 (-1) 5 BlockType.Stone = some { worldA with chunks :=
        (CoordMap.update worldA.chunks 0 0
          (chunkA.set_block 3 (toUsize (-1)) 5 BlockType.Stone)) }
    ∧ worldA.highest_in_column_from_y 3 (-1) 5
        = some (chunkA.highest_in_column_from_y 3 (toUsize (-1)) 5)
    ∧ worldA.get_block 3 (-1) 5 = none
    ∧ worldA.air_at 3 (-1) 5 = false
    ∧ (toUsize (-1) : Int) = 18446744073709551616 + (-1) :=
  ⟨(C10_wrapping_cast worldA 3 (-1) 5 BlockType.Stone chunkA (by decide) rfl).1,
   (C10_wrapping_cast worldA 3 (-1) 5 BlockType.Stone chunkA (by decide) rfl).2.1,
   (C10_wrapping_cast worldA 3 (-1) 5 BlockType.Stone chunkA (by decide) rfl).2.2.1,
   (C10_wrapping_cast worldA 3 (-1) 5 BlockType.Stone chunkA (by decide) rfl).2.2.2.1,
   (C10_wrapping_cast worldA 3 (-1) 5 BlockType.Stone chunkA (by decide) rfl).2.2.2.2 (by decide)⟩


/-! ## Viewport mesh recomputation and caching (claims C4, C5) -/

/-- Lookup after inserting at the same key. -/
theorem CoordMap.get_insert_self {α : Type} (m : CoordMap α) (x z : Int) (v : α) :
    CoordMap.get (CoordMap.insert m x z v) x z = some v := by
  simp [CoordMap.insert, CoordMap.get]

/-- Lookup after inserting at a different key. -/
theorem CoordMap.get_insert_ne {α : Type} (m : CoordMap α) (x z a b : Int) (v : α)
    (h : ¬((x, z) = (a, b))) :
    CoordMap.get (CoordMap.insert m x z v) a b = CoordMap.get m a b := by
  simp only [CoordMap.insert, CoordMap.get, if_neg h]

/-- The chunk handed back by `get_or_insert_chunk` carries exactly the
mesh buffer `gocMesh`. -/
theorem goc_fst_mesh (w : World) (cx cz : Int) :
    (w.get_or_insert_chunk cx cz).1.mesh = w.gocMesh (cx, cz) := by
  unfold World.get_or_insert_chunk World.gocMesh
  cases h : CoordMap.get w.chunks cx cz <;> simp [h]

/-- `get_or_insert_chunk` never changes which mesh buffer any coordinate
resolves to. -/
theorem goc_gocMesh (w : World) (cx cz : Int) :
    (w.get_or_insert_chunk cx cz).2.gocMesh = w.gocMesh := by
  funext c
  obtain ⟨a, b⟩ := c
  unfold World.get_or_insert_chunk
  cases h : CoordMap.get w.chunks cx cz with
  | some ch => rfl
  | none =>
    unfold World.gocMesh
    simp only []
    by_cases hab : (cx, cz) = (a, b)
    · rw [Prod.mk.injEq] at hab
      obtain ⟨h1, h2⟩ := hab
      subst h1
      subst h2
      rw [CoordMap.get_insert_self, h]
    · rw [CoordMap.get_insert_ne _ _ _ _ _ _ hab]

/-- `get_or_insert_chunk` leaves every non-chunk field unchanged. -/
theorem goc_preserve (w : World) (cx cz : Int) :
    (w.get_or_insert_chunk cx cz).2.render_distance = w.render_distance
    ∧ (w.get_or_insert_chunk cx cz).2.simplex = w.simplex
    ∧ (w.get_or_insert_chunk cx cz).2.mesh = w.mesh
    ∧ (w.get_or_insert_chunk cx cz).2.player_chunk_x = w.player_chunk_x
    ∧ (w.get_or_insert_chunk cx cz).2.player_chunk_z = w.player_chunk_z := by
  unfold World.get_or_insert_chunk
  cases h : CoordMap.get w.chunks cx cz <;> exact ⟨rfl, rfl, rfl, rfl, rfl⟩

/-- `get_or_insert_chunk` keeps every already-present chunk unchanged. -/
theorem goc_mono (w : World) (cx cz a b : Int)
    (h : (CoordMap.get w.chunks a b).isSome = true) :
    CoordMap.get (w.get_or_insert_chunk cx cz).2.chunks a b = CoordMap.get w.chunks a b := by
  unfold World.get_or_insert_chunk
  cases hg : CoordMap.get w.chunks cx cz with
  | some ch => rfl
  | none =>
    simp only []
    by_cases hab : (cx, cz) = (a, b)
    · rw [Prod.mk.injEq] at hab
      obtain ⟨h1, h2⟩ := hab
      subst h1
      subst h2
      rw [hg] at h
      simp at h
    · exact CoordMap.get_insert_ne _ _ _ _ _ _ hab

/-- On an already-present chunk `get_or_insert_chunk` is the identity. -/
theorem goc_of_present (w : World) (cx cz : Int) (ch : Chunk)
    (h : CoordMap.get w.chunks cx cz = some ch) :
    w.get_or_insert_chunk cx cz = (ch, w) := by
  unfold World.get_or_insert_chunk
  rw [h]

/-- After `get_or_insert_chunk` the target coordinate is present. -/
theorem goc_present_self (w : World) (cx cz : Int) :
    (CoordMap.get (w.get_or_insert_chunk cx cz).2.chunks cx cz).isSome = true := by
  unfold World.get_or_insert_chunk
  cases h : CoordMap.get w.chunks cx cz with
  | some ch => simp [h]
  | none => simp [CoordMap.get_insert_self]

/-- The mesh list collected by the viewport loop is exactly the in-disc
filtering of the candidate list, mapped through `gocMesh` of the starting
state, in enumeration order. -/
theorem recalcGo_mesh (pcx pcz : Int) (R : Nat) (l : List (Int × Int)) :
    ∀ (w : World),
      (World.recalcGo pcx pcz R w l).2
        = (l.filter fun c => decide ((pcx - c.1) ^ 2 + (pcz - c.2) ^ 2 ≤ (R : Int) ^ 2)).map
            w.gocMesh := by
  induction l with
  | nil => intro w; rfl
  | cons c rest ih =>
    intro w
    simp only [World.recalcGo, List.filter_cons]
    by_cases h : (R : Int) ^ 2 < (pcx - c.1) ^ 2 + (pcz - c.2) ^ 2
    · rw [if_pos h, decide_eq_false (by omega), ih]
      simp
    · rw [if_neg h, decide_eq_true (by omega)]
      simp only [if_true, List.map_cons]
      rw [goc_fst_mesh, ih, goc_gocMesh]

/-- The viewport loop never changes which mesh buffer any coordinate
resolves to. -/
theorem recalcGo_gocMesh (pcx pcz : Int) (R : Nat) (l : List (Int × Int)) :
    ∀ (w : World), (World.recalcGo pcx pcz R w l).1.gocMesh = w.gocMesh := by
  induction l with
  | nil => intro w; rfl
  | cons c rest ih =>
    intro w
    simp only [World.recalcGo]
    by_cases h : (R : Int) ^ 2 < (pcx - c.1) ^ 2 + (pcz - c.2) ^ 2
    · rw [if_pos h]; exact ih w
    · rw [if_neg h]
      simp only []
      rw [ih, goc_gocMesh]

/-- The viewport loop leaves every non-chunk field unchanged. -/
theorem recalcGo_preserve (pcx pcz : Int) (R : Nat) (l : List (Int × Int)) :
    ∀ (w : World),
      (World.recalcGo pcx pcz R w l).1.render_distance = w.render_distance
      ∧ (World.recalcGo pcx pcz R w l).1.simplex = w.simplex
      ∧ (World.recalcGo pcx pcz R w l).1.mesh = w.mesh
      ∧ (World.recalcGo pcx pcz R w l).1.player_chunk_x = w.player_chunk_x
      ∧ (World.recalcGo pcx pcz R w l).1.player_chunk_z = w.player_chunk_z := by
  induction l with
  | nil => intro w; exact ⟨rfl, rfl, rfl, rfl, rfl⟩
  | cons c rest ih =>
    intro w
    simp only [World.recalcGo]
    by_cases h : (R : Int) ^ 2 < (pcx - c.1) ^ 2 + (pcz - c.2) ^ 2
    · rw [if_pos h]; exact ih w
    · rw [if_neg h]
      simp only []
      obtain ⟨p1, p2, p3, p4, p5⟩ := ih (w.get_or_insert_chunk c.1 c.2).2
      obtain ⟨q1, q2, q3, q4, q5⟩ := goc_preserve w c.1 c.2
      exact ⟨p1.trans q1, p2.trans q2, p3.trans q3, p4.trans q4, p5.trans q5⟩

/-- The viewport loop keeps every already-present chunk unchanged. -/
theorem recalcGo_mono (pcx pcz : Int) (R : Nat) (l : List (Int × Int)) :
    ∀ (w : World) (a b : Int), (CoordMap.get w.chunks a b).isSome = true →
      CoordMap.get (World.recalcGo pcx pcz R w l).1.chunks a b = CoordMap.get w.chunks a b := by
  induction l with
  | nil => intro w a b _; rfl
  | cons c rest ih =>
    intro w a b h
    simp only [World.recalcGo]
    by_cases hd : (R : Int) ^ 2 < (pcx - c.1) ^ 2 + (pcz - c.2) ^ 2
    · rw [if_pos hd]; exact ih w a b h
    · rw [if_neg hd]
      simp only []
      have h2 := goc_mono w c.1 c.2 a b h
      rw [ih (w.get_or_insert_chunk c.1 c.2).2 a b (by rw [h2]; exact h), h2]

/-- After the viewport loop every in-disc candidate of the list is
present in the chunk map. -/
theorem recalcGo_present (pcx pcz : Int) (R : Nat) (l : List (Int × Int)) :
    ∀ (w : World) (c : Int × Int), c ∈ l →
      ¬((R : Int) ^ 2 < (pcx - c.1) ^ 2 + (pcz - c.2) ^ 2) →
      (CoordMap.get (World.recalcGo pcx pcz R w l).1.chunks c.1 c.2).isSome = true := by
  induction l with
  | nil => intro w c hc; cases hc
  | cons c0 rest ih =>
    intro w c hc hdisc
    simp only [World.recalcGo]
    rcases List.mem_cons.mp hc with hceq | hcrest
    · subst hceq
      rw [if_neg hdisc]
      simp only []
      have h1 := goc_present_self w c.1 c.2
      rw [recalcGo_mono pcx pcz R rest _ c.1 c.2 h1]
      exact h1
    · by_cases hd : (R : Int) ^ 2 < (pcx - c0.1) ^ 2 + (pcz - c0.2) ^ 2
      · rw [if_pos hd]; exact ih w c hcrest hdisc
      · rw [if_neg hd]
        simp only []
        exact ih _ c hcrest hdisc

/-- If every in-disc candidate is already present, the viewport loop does
not change the world at all. -/
theorem recalcGo_stable (pcx pcz : Int) (R : Nat) (l : List (Int × Int)) :
    ∀ (w : World),
      (∀ c ∈ l, ¬((R : Int) ^ 2 < (pcx - c.1) ^ 2 + (pcz - c.2) ^ 2) →
        (CoordMap.get w.chunks c.1 c.2).isSome = true) →
      (World.recalcGo pcx pcz R w l).1 = w := by
  induction l with
  | nil => intro w _; rfl
  | cons c rest ih =>
    intro w h
    simp only [World.recalcGo]
    by_cases hd : (R : Int) ^ 2 < (pcx - c.1) ^ 2 + (pcz - c.2) ^ 2
    · rw [if_pos hd]
      exact ih w (fun c' hc' hd' => h c' (List.mem_cons_of_mem c hc') hd')
    · rw [if_neg hd]
      simp only []
      have hpres := h c (List.mem_cons_self c rest) hd
      obtain ⟨ch, hch⟩ := Option.isSome_iff_exists.mp hpres
      rw [goc_of_present w c.1 c.2 ch hch]
      exact ih w (fun c' hc' hd' => h c' (List.mem_cons_of_mem c hc') hd')

/-- Membership in the enumerated candidate square: exactly the offsets in
`[-R, R)` on each axis. -/
theorem squareCoords_mem (R : Nat) (pcx pcz dx dz : Int) :
    (pcx + dx, pcz + dz) ∈ squareCoords R pcx pcz ↔
      (-(R : Int) ≤ dx ∧ dx < (R : Int) ∧ -(R : Int) ≤ dz ∧ dz < (R : Int)) := by
  constructor
  · intro hmem
    unfold squareCoords at hmem
    obtain ⟨x, hx, hmem2⟩ := List.mem_flatMap.mp hmem
    obtain ⟨z, hz, heq⟩ := List.mem_map.mp hmem2
    rw [List.mem_range] at hx hz
    rw [Prod.mk.injEq] at heq
    obtain ⟨h1, h2⟩ := heq
    omega
  · rintro ⟨h1, h2, h3, h4⟩
    unfold squareCoords
    refine List.mem_flatMap.mpr ⟨(dx + R).toNat, List.mem_range.mpr (by omega), ?_⟩
    refine List.mem_map.mpr ⟨(dz + R).toNat, List.mem_range.mpr (by omega), ?_⟩
    rw [Prod.mk.injEq]
    constructor <;> omega

/-- Mesh-buffer resolution only depends on the chunk map and the noise
field. -/
theorem gocMesh_congr (u v : World) (hch : u.chunks = v.chunks) (hsx : u.simplex = v.simplex) :
    u.gocMesh = v.gocMesh := by
  funext c
  unfold World.gocMesh
  rw [hch, hsx]

/-- Cache-hit branch of `get_world_mesh_from_perspective`. -/
theorem get_world_mesh_hit (w : World) (px pz : Int)
    (h1 : 0 < w.mesh.length) (h2 : w.player_chunk_x = px.tdiv 16)
    (h3 : w.player_chunk_z = pz.tdiv 16) :
    w.get_world_mesh_from_perspective px pz false = (w.mesh, w) := by
  simp only [World.get_world_mesh_from_perspective]
  rw [if_pos ⟨trivial, h1, h2, h3⟩]

/-- Cache-miss branch of `get_world_mesh_from_perspective`. -/
theorem get_world_mesh_miss (w : World) (px pz : Int)
    (h : ¬(0 < w.mesh.length ∧ w.player_chunk_x = px.tdiv 16
        ∧ w.player_chunk_z = pz.tdiv 16)) :
    w.get_world_mesh_from_perspective px pz false
      = (({ w.recalculate_mesh_from_perspective (px.tdiv 16) (pz.tdiv 16) with
            player_chunk_x := px.tdiv 16, player_chunk_z := pz.tdiv 16 } : World).mesh,
         ({ w.recalculate_mesh_from_perspective (px.tdiv 16) (pz.tdiv 16) with
            player_chunk_x := px.tdiv 16, player_chunk_z := pz.tdiv 16 } : World)) := by
  simp only [World.get_world_mesh_from_perspective]
  rw [if_neg (fun hcc => h hcc.2)]

/-- Recomputing the viewport a second time from a state whose chunks are
those left by a first recomputation changes nothing: no chunk is created
and the same mesh list is produced. -/
theorem recalculate_twice (w v : World) (pcx pcz : Int)
    (hch : v.chunks = (w.recalculate_mesh_from_perspective pcx pcz).chunks)
    (hsx : v.simplex = w.simplex)
    (hrd : v.render_distance = w.render_distance) :
    (v.recalculate_mesh_from_perspective pcx pcz).chunks = v.chunks
    ∧ (v.recalculate_mesh_from_perspective pcx pcz).mesh
        = (w.recalculate_mesh_from_perspective pcx pcz).mesh := by
  have hpre := recalcGo_preserve pcx pcz w.render_distance
      (squareCoords w.render_distance pcx pcz) w
  have hg : v.gocMesh = w.gocMesh := by
    refine (gocMesh_congr v (World.recalcGo pcx pcz w.render_distance w
        (squareCoords w.render_distance pcx pcz)).1 hch ?_).trans
      (recalcGo_gocMesh pcx pcz w.render_distance _ w)
    exact hsx.trans hpre.2.1.symm
  have hstab : (World.recalcGo pcx pcz w.render_distance v
      (squareCoords w.render_distance pcx pcz)).1 = v := by
    apply recalcGo_stable
    intro c hcmem hd
    rw [hch]
    exact recalcGo_present pcx pcz w.render_distance _ w c hcmem hd
  constructor
  · show (World.recalcGo pcx pcz v.render_distance v
        (squareCoords v.render_distance pcx pcz)).1.chunks = v.chunks
    rw [hrd, hstab]
  · show (World.recalcGo pcx pcz v.render_distance v
        (squareCoords v.render_distance pcx pcz)).2
      = (World.recalcGo pcx pcz w.render_distance w
        (squareCoords w.render_distance pcx pcz)).2
    rw [hrd, recalcGo_mesh, recalcGo_mesh, hg]

/-- C5: a viewport recompute enumerates candidate chunks over offsets in
[-render_distance, +render_distance) on each axis (outer x ascending,
inner z ascending — the order of `squareCoords`), keeps exactly the
candidates within Euclidean distance render_distance of the player's
chunk (`dx² + dz² ≤ R²`), and appends one mesh-buffer reference per
retained chunk in enumeration order. -/
theorem C5_viewport_disc (w : World) (pcx pcz : Int) :
    ((w.recalculate_mesh_from_perspective pcx pcz).mesh
      = ((squareCoords w.render_distance pcx pcz).filter
          (fun c => decide ((pcx - c.1) ^ 2 + (pcz - c.2) ^ 2
            ≤ ((w.render_distance : Int)) ^ 2))).map w.gocMesh)
    ∧ ∀ dx dz : Int,
        ((pcx + dx, pcz + dz) ∈ squareCoords w.render_distance pcx pcz ↔
          (-(w.render_distance : Int) ≤ dx ∧ dx < (w.render_distance : Int)
            ∧ -(w.render_distance : Int) ≤ dz ∧ dz < (w.render_distance : Int))) :=
  ⟨recalcGo_mesh pcx pcz w.render_distance (squareCoords w.render_distance pcx pcz) w,
   fun dx dz => squareCoords_mem w.render_distance pcx pcz dx dz⟩

/-- C4: with force = false, a non-empty cache and an unchanged viewer
chunk, `get_world_mesh_from_perspective` returns the cached sequence with
no state change at all; consequently a second call at the same player
position with force = false creates no chunk (the chunk map is unchanged)
and returns a sequence of equal content. -/
theorem C4_viewport_cache (w : World) (px pz : Int) :
    (0 < w.mesh.length → w.player_chunk_x = px.tdiv 16 → w.player_chunk_z = pz.tdiv 16 →
      w.get_world_mesh_from_perspective px pz false = (w.mesh, w))
    ∧ ((w.get_world_mesh_from_perspective px pz false).2.get_world_mesh_from_perspective
        px pz false).2.chunks = (w.get_world_mesh_from_perspective px pz false).2.chunks
    ∧ ((w.get_world_mesh_from_perspective px pz false).2.get_world_mesh_from_perspective
        px pz false).1 = (w.get_world_mesh_from_perspective px pz false).1 := by
  refine ⟨fun h1 h2 h3 => get_world_mesh_hit w px pz h1 h2 h3, ?_⟩
  by_cases hc : (0 < w.mesh.length ∧ w.player_chunk_x = px.tdiv 16
      ∧ w.player_chunk_z = pz.tdiv 16)
  · have e1 := get_world_mesh_hit w px pz hc.1 hc.2.1 hc.2.2
    rw [e1]
    simp only []
    rw [e1]
    exact ⟨rfl, rfl⟩
  · have e1 := get_world_mesh_miss w px pz hc
    rw [e1]
    simp only []
    by_cases hc2 : 0 < (({ w.recalculate_mesh_from_perspective (px.tdiv 16) (pz.tdiv 16) with
        player_chunk_x := px.tdiv 16, player_chunk_z := pz.tdiv 16 } : World)).mesh.length
    · have e2 := get_world_mesh_hit ({ w.recalculate_mesh_from_perspective (px.tdiv 16)
          (pz.tdiv 16) with player_chunk_x := px.tdiv 16, player_chunk_z := pz.tdiv 16 } : World)
          px pz hc2 rfl rfl
      rw [e2]
      exact ⟨rfl, rfl⟩
    · have e2 := get_world_mesh_miss ({ w.recalculate_mesh_from_perspective (px.tdiv 16)
          (pz.tdiv 16) with player_chunk_x := px.tdiv 16, player_chunk_z := pz.tdiv 16 } : World)
          px pz (fun hcc => hc2 hcc.1)
      rw [e2]
      simp only []
      have hpre := recalcGo_preserve (px.tdiv 16) (pz.tdiv 16) w.render_distance
          (squareCoords w.render_distance (px.tdiv 16) (pz.tdiv 16)) w
      have htwice := recalculate_twice w ({ w.recalculate_mesh_from_perspective (px.tdiv 16)
          (pz.tdiv 16) with player_chunk_x := px.tdiv 16, player_chunk_z := pz.tdiv 16 } : World)
          (px.tdiv 16) (pz.tdiv 16) rfl hpre.2.1 hpre.1
      exact ⟨htwice.1, htwice.2⟩

/-- C4 witness: on `worldCached` (non-empty cache, viewer chunk (0,0)) at
player (0, 0): the call returns the cached sequence with no state change,
and a repeated call leaves the chunk map unchanged and returns equal
content. -/
theorem C4_viewport_cache_witness :
    worldCached.get_world_mesh_from_perspective 0 0 false = (worldCached.mesh, worldCached)
    ∧ ((worldCached.get_world_mesh_from_perspective 0 0 false).2.get_world_mesh_from_perspective
        0 0 false).2.chunks = (worldCached.get_world_mesh_from_perspective 0 0 false).2.chunks
    ∧ ((worldCached.get_world_mesh_from_perspective 0 0 false).2.get_world_mesh_from_perspective
        0 0 false).1 = (worldCached.get_world_mesh_from_perspective 0 0 false).1 :=
  ⟨(C4_viewport_cache worldCached 0 0).1 (by decide) rfl rfl,
   (C4_viewport_cache worldCached 0 0).2.1,
   (C4_viewport_cache worldCached 0 0).2.2⟩

/-! ## Raymarching (claims C6, C7) -/

/-- If every position the loop will sample within its budget is non-solid,
the raymarch loop exhausts the budget and returns none. -/
theorem raymarch_loop_none (w : World) (position dir : Vec3) :
    ∀ (fuel : Nat) (cp : Vec3),
      (∀ k : Nat, k ≤ fuel → w.solid_sample (stepN dir (k + 1) cp) = false) →
      w.raymarch_loop position dir fuel cp = none := by
  intro fuel
  induction fuel with
  | zero =>
    intro cp h
    have h0 : w.solid_sample (cp.add dir) = false := h 0 (Nat.le_refl 0)
    unfold World.solid_sample at h0
    simp only [World.raymarch_loop]
    cases hb : w.get_block ((cp.add dir).x.round) ((cp.add dir).y.round)
        ((cp.add dir).z.round) with
    | none => rfl
    | some b =>
      rw [hb] at h0
      have hair : ¬(b ≠ BlockType.Air) := of_decide_eq_false h0
      simp only [if_neg hair]
  | succ f ihf =>
    intro cp h
    have h0 : w.solid_sample (cp.add dir) = false := h 0 (Nat.zero_le _)
    unfold World.solid_sample at h0
    simp only [World.raymarch_loop]
    cases hb : w.get_block ((cp.add dir).x.round) ((cp.add dir).y.round)
        ((cp.add dir).z.round) with
    | none =>
      show w.raymarch_loop position dir f (cp.add dir) = none
      exact ihf (cp.add dir) (fun k hk => h (k + 1) (Nat.succ_le_succ hk))
    | some b =>
      rw [hb] at h0
      have hair : ¬(b ≠ BlockType.Air) := of_decide_eq_false h0
      simp only [if_neg hair]
      show w.raymarch_loop position dir f (cp.add dir) = none
      exact ihf (cp.add dir) (fun k hk => h (k + 1) (Nat.succ_le_succ hk))

/-- A fresh (chunkless) world resolves every block query to none, so no
raymarch sample in it is solid. -/
theorem solid_sample_fresh (R : Nat) (s : SimplexField) (v : Vec3) :
    (World.new R s).solid_sample v = false := rfl

/-- C6 (amended): `raymarch_block` always terminates (its budget counter
is structural); it samples the positions position + k·(direction/10) for
k = 1, 2, …, and if none of the sampled positions resolves to a non-air
block it returns "no hit" (none) — after 251 samples, not 250: the
counter starts at 250 but is tested only after each sample, so for a ray
through a region containing no solid block within 251 steps of length
|direction|/10 the result is none. -/
theorem C6_raymarch_budget (w : World) (position direction : Vec3)
    (h : ∀ k : Nat, k ≤ 250 →
      w.solid_sample (stepN (direction.divInt 10) (k + 1) position) = false) :
    w.raymarch_block position direction = none :=
  raymarch_loop_none w position (direction.divInt 10) 250 position h

/-- C6 witness: in a fresh world every sample misses, and the ray from
the origin with direction (10,0,0) indeed returns none. -/
theorem C6_raymarch_budget_witness :
    (World.new 2 trivSimplex).raymarch_block ⟨⟨0, 1⟩, ⟨0, 1⟩, ⟨0, 1⟩⟩
      ⟨⟨10, 1⟩, ⟨0, 1⟩, ⟨0, 1⟩⟩ = none :=
  C6_raymarch_budget (World.new 2 trivSimplex) ⟨⟨0, 1⟩, ⟨0, 1⟩, ⟨0, 1⟩⟩
    ⟨⟨10, 1⟩, ⟨0, 1⟩, ⟨0, 1⟩⟩
    (fun _ _ => solid_sample_fresh 2 trivSimplex _)

set_option maxRecDepth 40000 in
/-- In `world251` none of the first 250 samples of the ray from the
origin with step vector (1, 0, 0) is solid: the world's only solid block
is at (251, 0, 0), one step beyond the claimed 250-step budget. -/
theorem world251_first_250_air :
    ∀ k : Nat, k < 250 →
      world251.solid_sample (stepN (Vec3.divInt ⟨⟨10, 1⟩, ⟨0, 1⟩, ⟨0, 1⟩⟩ 10) (k + 1)
        ⟨⟨0, 1⟩, ⟨0, 1⟩, ⟨0, 1⟩⟩) = false := by decide

set_option maxRecDepth 40000 in
/-- C6 counterexample: in `world251` (no solid block within 250 steps of
length |direction|/10 of this ray, see `world251_first_250_air`) the
source does not return "no hit": it samples a 251st position and returns
a hit at (251, 0, 0). -/
theorem C6_cex :
    world251.raymarch_block ⟨⟨0, 1⟩, ⟨0, 1⟩, ⟨0, 1⟩⟩ ⟨⟨10, 1⟩, ⟨0, 1⟩, ⟨0, 1⟩⟩
      = some ((251, 0, 0), some Face.Left) := by decide

/-- C7: in `worldOrigin` (only solid block at world (0,0,0), all other
loaded space air), the raymarch from (5, 0, 0) with direction (-1, 0, 0)
toward the origin returns a hit at block (0, 0, 0) with the Right face
(struck from the +x side). -/
theorem C7_raymarch_hit :
    worldOrigin.raymarch_block ⟨⟨5, 1⟩, ⟨0, 1⟩, ⟨0, 1⟩⟩ ⟨⟨-1, 1⟩, ⟨0, 1⟩, ⟨0, 1⟩⟩
      = some ((0, 0, 0), some Face.Right) := by decide

end RC
